import Mathlib

/-!
Verification of the twitch-gift-farm repository (Rust) against its design
specification, via a shallow embedding in Lean 4.

The embedding covers:
* the notice classifier and the per-notice handler (`handle_user_notice` in
  `src/main.rs` and in `src/bin/twitch-gift-farm.rs`),
* the channel-registry merge step of `main` in `src/bin/get-streams.rs`
  (append, sort, dedup, and the net-new count),
* the pagination harvester (`get_top_games`, `get_streams_page`,
  `get_all_streams_for_game`, `get_streams` in `src/bin/get-streams.rs`),
  instrumented with the list of HTTP requests it issues,
* the join loop (`Bot::join_channels`) and the session state machine
  (`Bot::handle_message` / `Bot::reconnect`).

Channel names in the registry are modelled as `List Char`.  Rust compares
`String`s byte-wise on their UTF-8 encoding, and UTF-8 byte order agrees with
code-point order, which is the lexicographic order on `List Char` used here.
Network effects are modelled by oracles: a fetch oracle maps each HTTP request
to its outcome, and a join oracle maps each channel to its join outcome.
-/

namespace TwitchGiftFarm

/-! ### NoticeClassifier: `NoticeType` and `SubPlan` mappings

`sub_gift_to_string` and `sub_plan_to_string` appear identically in
`src/main.rs` and `src/bin/twitch-gift-farm.rs`.  The upstream enums are
non-exhaustive for our purposes, so each model type carries an extra
constructor standing for every other variant, matched by the wildcard arm. -/

inductive NoticeType
  | subGift
  | anonSubGift
  | otherNotice
deriving DecidableEq, Repr

inductive SubPlan
  | prime
  | tier1
  | tier2
  | tier3
  | otherPlan
deriving DecidableEq, Repr

/-- `sub_gift_to_string` from the source: only SubGift and AnonSubGift are
recognized, anything else maps to "unknown". -/
def subGiftToString : Option NoticeType → String
  | some NoticeType.subGift => "sub gift"
  | some NoticeType.anonSubGift => "anonymous sub gift"
  | _ => "unknown"

/-- `sub_plan_to_string` from the source. -/
def subPlanToString : Option SubPlan → String
  | some SubPlan.prime => "prime"
  | some SubPlan.tier1 => "tier1"
  | some SubPlan.tier2 => "tier2"
  | some SubPlan.tier3 => "tier3"
  | _ => "Unknown"

/-- Character-level model of Rust `str::replace("\\s", " ")`: scan left to
right, replace each non-overlapping occurrence of the two-character sequence
backslash-s by a single space, and continue after the replacement. -/
def replaceEscSChars : List Char → List Char
  | '\\' :: 's' :: rest => ' ' :: replaceEscSChars rest
  | c :: rest => c :: replaceEscSChars rest
  | [] => []

/-- `replace("\\s", " ")` on a whole string. -/
def replaceEscS (s : String) : String := String.mk (replaceEscSChars s.data)

/-- The fields of a `UserNotice` read by the two handlers.  Tag-style fields
are optional exactly where the twitchchat accessors return `Option`. -/
structure UserNotice where
  msgParamRecipientUserName : Option String
  msgParamRecipientDisplayName : Option String
  msgId : Option NoticeType
  msgParamSubPlan : Option SubPlan
  displayName : Option String
  login : Option String
  msgParamSubPlanName : Option String
  channel : String
deriving DecidableEq, Repr

/-- Outcome of handling one user notice: a log line (as the ordered list of
interpolated fields), a silent drop, or an aborted handler (a Rust panic from
`.unwrap()` on a missing field). -/
inductive HandleResult
  | logged (fields : List String)
  | dropped
  | panicked
deriving DecidableEq, Repr

/-- The body of `handle_user_notice` in `src/main.rs` after the recipient
check: `msg_param_sub_plan_name().unwrap()` panics when the plan label is
absent; otherwise the notice is logged with fields in format order
(channel, sub_plan, gift_type, display_name, sub_plan_name). -/
def mainLogLine (msg : UserNotice) : HandleResult :=
  match msg.msgParamSubPlanName with
  | none => HandleResult.panicked
  | some raw =>
      HandleResult.logged
        [msg.channel, subPlanToString msg.msgParamSubPlan,
          subGiftToString msg.msgId,
          (msg.displayName.or msg.login).getD "anonymous",
          replaceEscS raw]

/-- `Bot::handle_user_notice` from `src/main.rs` (lines 132-152): when a
recipient user name is present and differs from the configured name the
notice is dropped, but when the recipient field is absent control falls
through to the logging code (there is no `else` branch). -/
def handleUserNoticeMain (cfgName : String) (msg : UserNotice) : HandleResult :=
  match msg.msgParamRecipientUserName with
  | some recipient =>
      if recipient ≠ cfgName then HandleResult.dropped else mainLogLine msg
  | none => mainLogLine msg

/-- The logging code of `handle_user_notice` in
`src/bin/twitch-gift-farm.rs`: recipient display name defaults to the
source's literal "unkown", the plan label defaults to "unknown" and is then
escape-expanded; fields in format order (recipient, channel, sub_plan,
gift_type, display_name, sub_plan_name). -/
def binLogLine (msg : UserNotice) : HandleResult :=
  HandleResult.logged
    [msg.msgParamRecipientDisplayName.getD "unkown",
      msg.channel, subPlanToString msg.msgParamSubPlan,
      subGiftToString msg.msgId,
      (msg.displayName.or msg.login).getD "anonymous",
      replaceEscS (msg.msgParamSubPlanName.getD "unknown")]

/-- `Bot::handle_user_notice` from `src/bin/twitch-gift-farm.rs` (lines
105-133): a notice without a recipient user name is dropped (`else return`),
one with a differing recipient is dropped, otherwise it is logged. -/
def handleUserNoticeBin (cfgName : String) (msg : UserNotice) : HandleResult :=
  match msg.msgParamRecipientUserName with
  | some recipient =>
      if recipient ≠ cfgName then HandleResult.dropped else binLogLine msg
  | none => HandleResult.dropped

/-! ### ChannelRegistry: the merge step of `main` in `src/bin/get-streams.rs`

```text
config.channels.append(&mut channels);
config.channels.sort();
config.channels.dedup();
info!("Saving {} new channels for a total of {}",
      config.channels.len() - old_count, ...);
```

`Vec::sort` is a stable sort under the byte-lexicographic `Ord` of the
element strings; `Vec::dedup` removes consecutive repeated elements, keeping
the first of each run; the net-new count is a `usize` subtraction, which is
an arithmetic overflow (a panic in debug builds) when the minuend is
smaller. -/

abbrev ChannelName := List Char

/-- `Vec::sort` on channel names, modelled by insertion sort: with a total
order and byte-wise equality, every comparison sort produces this list. -/
def sortChannels (l : List ChannelName) : List ChannelName :=
  List.insertionSort (· ≤ ·) l

/-- Helper for `dedupAdjacent`: drop elements equal to the previous kept
element, walking left to right. -/
def dedupRun (prev : ChannelName) : List ChannelName → List ChannelName
  | [] => []
  | b :: rest => if prev = b then dedupRun prev rest else b :: dedupRun b rest

/-- `Vec::dedup`: remove consecutive repeated elements, keeping the first of
each run. -/
def dedupAdjacent : List ChannelName → List ChannelName
  | [] => []
  | a :: rest => a :: dedupRun a rest

/-- The registry merge: append the incoming names to the existing ones, sort,
then remove adjacent duplicates. -/
def merge (existing incoming : List ChannelName) : List ChannelName :=
  dedupAdjacent (sortChannels (existing ++ incoming))

/-- `usize` subtraction `a - b`: defined only when it does not underflow
(Rust declares the underflowing case an arithmetic-overflow error; debug
builds panic there). -/
def checkedSub (a b : Nat) : Option Nat :=
  if b ≤ a then some (a - b) else none

/-- The net-new count reported by `main`:
`config.channels.len() - old_count` computed after the merge, where
`old_count` is the pre-merge length. -/
def netNew (existing incoming : List ChannelName) : Option Nat :=
  checkedSub (merge existing incoming).length existing.length

/-! ### PaginationHarvester: `src/bin/get-streams.rs`

Each fetch helper is instrumented: it returns the list of HTTP requests it
issues alongside its `Result`.  The network is an oracle from requests to
outcomes.  `try_join_all` polls every future, so every request of a fan-out
is issued; its value is the list of all successes, or an error as soon as any
branch fails. -/

inductive Request
  | topGames (offset limit : Nat)
  | streams (game : String) (offset limit : Nat)
deriving DecidableEq, Repr

/-- Classifier for requests against the top-games endpoint. -/
def isTopGamesRequest : Request → Bool
  | Request.topGames _ _ => true
  | Request.streams _ _ _ => false

/-- The network, as a map from requests to outcomes. -/
abbrev FetchOracle := Request → Except String (List String)

/-- `futures::future::try_join_all` on already-determined outcomes: all
successes collected in order, or an error when any branch errors. -/
def tryJoinAll {α : Type} : List (Except String α) → Except String (List α)
  | [] => Except.ok []
  | Except.error e :: _ => Except.error e
  | Except.ok a :: rest =>
      match tryJoinAll rest with
      | Except.ok others => Except.ok (a :: others)
      | Except.error e => Except.error e

/-- `get_top_games`: one request at the given offset with limit 100. -/
def getTopGames (oracle : FetchOracle) (offset : Nat) :
    List Request × Except String (List String) :=
  ([Request.topGames offset 100], oracle (Request.topGames offset 100))

/-- `get_streams_page`: one request for one page of live streams of one
game, at the given offset with limit 100. -/
def getStreamsPage (oracle : FetchOracle) (game : String) (offset : Nat) :
    List Request × Except String (List String) :=
  ([Request.streams game offset 100], oracle (Request.streams game offset 100))

/-- The page offsets requested per game: `(0..=9).map(|i| i * 100)`. -/
def pageOffsets : List Nat := (List.range 10).map (· * 100)

/-- `get_all_streams_for_game`: ten concurrent page fetches at
`pageOffsets`, joined all-or-nothing, successes flattened in page order. -/
def getAllStreamsForGame (oracle : FetchOracle) (game : String) :
    List Request × Except String (List String) :=
  let pages := pageOffsets.map fun off => getStreamsPage oracle game off
  (pages.flatMap Prod.fst,
    (tryJoinAll (pages.map Prod.snd)).map List.flatten)

/-- `get_streams`: fetch the top games once at offset 0, then fan out
`get_all_streams_for_game` over every game concurrently, joined
all-or-nothing, successes flattened in game order. -/
def getStreams (oracle : FetchOracle) :
    List Request × Except String (List String) :=
  match getTopGames oracle 0 with
  | (tr, Except.error e) => (tr, Except.error e)
  | (tr, Except.ok games) =>
      let sub := games.map fun g => getAllStreamsForGame oracle g
      (tr ++ sub.flatMap Prod.fst,
        (tryJoinAll (sub.map Prod.snd)).map List.flatten)

/-! ### ChatSession: `Bot::join_channels` and the receive loop

A join oracle gives, per channel, the resolution of the race between
`runner.join(channel)` and the timeout timer. -/

/-- Resolution of one join attempt raced against its timeout. -/
inductive JoinOutcome
  | joined
  | errored (e : String)
  | timedOut
deriving DecidableEq, Repr

/-- Whether the attempt resolved as a successful join. -/
def JoinOutcome.isJoined : JoinOutcome → Bool
  | JoinOutcome.joined => true
  | _ => false

/-- Observable events of the join loop: an info line per attempt, an error
line per failure. -/
inductive JoinEvent
  | attempt (channel : String)
  | failure (channel : String) (err : String)
deriving DecidableEq, Repr

/-- The channel of an attempt event. -/
def attemptChannel : JoinEvent → Option String
  | JoinEvent.attempt c => some c
  | JoinEvent.failure _ _ => none

/-- The channel of a failure event. -/
def failureChannel : JoinEvent → Option String
  | JoinEvent.attempt _ => none
  | JoinEvent.failure c _ => some c

/-- The attempted channels, in event order. -/
def attemptsOf (evs : List JoinEvent) : List String :=
  evs.filterMap attemptChannel

/-- The channels logged as failed, in event order. -/
def failuresOf (evs : List JoinEvent) : List String :=
  evs.filterMap failureChannel

/-- One iteration of the loop body of `Bot::join_channels`: log the attempt;
on an error or a timeout of the race, log the failure and fall through. -/
def joinOne (outcome : String → JoinOutcome) (c : String) : List JoinEvent :=
  JoinEvent.attempt c ::
    (match outcome c with
     | JoinOutcome.joined => []
     | JoinOutcome.errored e => [JoinEvent.failure c e]
     | JoinOutcome.timedOut => [JoinEvent.failure c "timed out"])

/-- `Bot::join_channels`: iterate over the configured channels front to
back; the loop body never propagates an error, and `Ok(())` is returned
after the loop. -/
def joinChannels (outcome : String → JoinOutcome) :
    List String → Except String (List JoinEvent)
  | [] => Except.ok []
  | c :: rest =>
      match joinChannels outcome rest with
      | Except.ok evs => Except.ok (joinOne outcome c ++ evs)
      | Except.error e => Except.error e

/-- Phases of the session: `Connecting` (a connect attempt is in flight),
`Joining` (the join loop runs), `Running` (the receive loop awaits the next
message), `Terminated` (an error propagated out of `Bot::run`). -/
inductive Phase
  | connecting
  | joining
  | running
  | terminated
deriving DecidableEq, Repr

/-- Session state: the phase plus the configured channel list
(`Bot.channels`, which no code path mutates). -/
structure SessState where
  phase : Phase
  channels : List String
deriving DecidableEq, Repr

/-- Environment events driving the session: resolution of a connect attempt,
completion of the join phase, and the three classes handled by
`Bot::handle_message` (a user notice, any other message, EOF) plus an error
from `next_message`. -/
inductive SessEvent
  | connectOk
  | connectErr
  | joinDone
  | giftNotice
  | otherMessage
  | eof
  | messageErr
deriving DecidableEq, Repr

/-- Transition function read off `Bot::run`, `Bot::reconnect` and
`Bot::handle_message`: a failed connect propagates and terminates the run; a
completed join phase enters the receive loop; notices and other messages
leave the loop running; EOF triggers `reconnect`, i.e. a fresh connect with
the unchanged channel list; an error from `next_message` propagates. -/
def sessStep (st : SessState) (ev : SessEvent) : SessState :=
  match st.phase, ev with
  | Phase.connecting, SessEvent.connectOk => ⟨Phase.joining, st.channels⟩
  | Phase.connecting, SessEvent.connectErr => ⟨Phase.terminated, st.channels⟩
  | Phase.joining, SessEvent.joinDone => ⟨Phase.running, st.channels⟩
  | Phase.running, SessEvent.eof => ⟨Phase.connecting, st.channels⟩
  | Phase.running, SessEvent.messageErr => ⟨Phase.terminated, st.channels⟩
  | _, _ => st

/-- Run the session under a sequence of environment events. -/
def stepAll (st : SessState) (evs : List SessEvent) : SessState :=
  evs.foldl sessStep st

/-- The event sequence of one disconnect-and-recover round: EOF, then a
successful connect, then completion of the join phase. -/
def reconnectCycle : List SessEvent :=
  [SessEvent.eof, SessEvent.connectOk, SessEvent.joinDone]

/-- `n` consecutive disconnect-and-recover rounds. -/
def reconnectCycles : Nat → List SessEvent
  | 0 => []
  | n + 1 => reconnectCycle ++ reconnectCycles n

/-! ### Concrete inputs used by individual claims -/

/-- A gift notice carrying no recipient user name at all. -/
def noticeMissingRecipient : UserNotice :=
  { msgParamRecipientUserName := none
    msgParamRecipientDisplayName := none
    msgId := some NoticeType.subGift
    msgParamSubPlan := some SubPlan.tier1
    displayName := some "Dave"
    login := none
    msgParamSubPlanName := some "ThePlan"
    channel := "#somechannel" }

/-- A gift notice addressed to the configured user "me" whose plan-label tag
is absent. -/
def noticeMissingPlanLabel : UserNotice :=
  { msgParamRecipientUserName := some "me"
    msgParamRecipientDisplayName := some "Me"
    msgId := some NoticeType.subGift
    msgParamSubPlan := some SubPlan.tier1
    displayName := some "Dave"
    login := none
    msgParamSubPlanName := none
    channel := "#somechannel" }

/-- A network where the top-games call returns one game and exactly the page
at offset 300 fails. -/
def oracleOnePageFails : FetchOracle := fun r =>
  match r with
  | Request.topGames _ _ => Except.ok ["g1"]
  | Request.streams _ off _ =>
      if off = 300 then Except.error "boom" else Except.ok ["c1"]

/-- A network where the top-games call returns two games and every page
fetch succeeds with the single channel "c". -/
def oracleAllOk : FetchOracle := fun r =>
  match r with
  | Request.topGames _ _ => Except.ok ["g1", "g2"]
  | Request.streams _ _ _ => Except.ok ["c"]

/-! ## Lemmas about the registry merge -/

lemma mem_of_mem_dedupRun {x : ChannelName} :
    ∀ (l : List ChannelName) (p : ChannelName), x ∈ dedupRun p l → x ∈ l := by
  intro l
  induction l with
  | nil => intro p h; simp [dedupRun] at h
  | cons b rest ih =>
      intro p h
      rw [dedupRun] at h
      by_cases hpb : p = b
      · rw [if_pos hpb] at h
        exact List.mem_cons_of_mem b (ih p h)
      · rw [if_neg hpb] at h
        rcases List.mem_cons.mp h with rfl | h2
        · exact List.mem_cons_self x rest
        · exact List.mem_cons_of_mem b (ih b h2)

lemma mem_dedupRun_of_mem {x : ChannelName} :
    ∀ (l : List ChannelName) (p : ChannelName), x ∈ l → x = p ∨ x ∈ dedupRun p l := by
  intro l
  induction l with
  | nil => intro p h; cases h
  | cons b rest ih =>
      intro p h
      rw [dedupRun]
      by_cases hpb : p = b
      · rw [if_pos hpb]
        rcases List.mem_cons.mp h with rfl | h2
        · exact Or.inl hpb.symm
        · exact ih p h2
      · rw [if_neg hpb]
        rcases List.mem_cons.mp h with rfl | h2
        · exact Or.inr (List.mem_cons_self x _)
        · rcases ih b h2 with rfl | h3
          · exact Or.inr (List.mem_cons_self x _)
          · exact Or.inr (List.mem_cons_of_mem b h3)

lemma mem_dedupAdjacent {x : ChannelName} :
    ∀ {l : List ChannelName}, x ∈ dedupAdjacent l ↔ x ∈ l := by
  intro l
  cases l with
  | nil => simp [dedupAdjacent]
  | cons a rest =>
      rw [dedupAdjacent]
      constructor
      · intro h
        rcases List.mem_cons.mp h with rfl | h2
        · exact List.mem_cons_self x rest
        · exact List.mem_cons_of_mem a (mem_of_mem_dedupRun rest a h2)
      · intro h
        rcases List.mem_cons.mp h with rfl | h2
        · exact List.mem_cons_self x _
        · rcases mem_dedupRun_of_mem rest a h2 with rfl | h3
          · exact List.mem_cons_self x _
          · exact List.mem_cons_of_mem a h3

lemma sorted_lt_cons_dedupRun :
    ∀ (l : List ChannelName) (p : ChannelName), (p :: l).Sorted (· ≤ ·) →
      (p :: dedupRun p l).Sorted (· < ·) := by
  intro l
  induction l with
  | nil => intro p _; simp [dedupRun]
  | cons b rest ih =>
      intro p h
      rcases List.sorted_cons.mp h with ⟨hle, hrest⟩
      rw [dedupRun]
      by_cases hpb : p = b
      · rw [if_pos hpb]
        refine ih p (List.sorted_cons.mpr ⟨?_, hrest.of_cons⟩)
        intro x hx
        exact hle x (List.mem_cons_of_mem b hx)
      · rw [if_neg hpb]
        have hpltb : p < b :=
          lt_of_le_of_ne (hle b (List.mem_cons_self b rest)) hpb
        refine List.sorted_cons.mpr ⟨?_, ih b hrest⟩
        intro x hx
        rcases List.mem_cons.mp hx with rfl | hx2
        · exact hpltb
        · exact lt_of_lt_of_le hpltb
            (List.rel_of_sorted_cons hrest x (mem_of_mem_dedupRun rest b hx2))

lemma sorted_lt_dedupAdjacent {l : List ChannelName} (h : l.Sorted (· ≤ ·)) :
    (dedupAdjacent l).Sorted (· < ·) := by
  cases l with
  | nil => simp [dedupAdjacent]
  | cons a rest => exact sorted_lt_cons_dedupRun rest a h

lemma sorted_lt_merge (existing incoming : List ChannelName) :
    (merge existing incoming).Sorted (· < ·) :=
  sorted_lt_dedupAdjacent (List.sorted_insertionSort _ _)

lemma sorted_merge (existing incoming : List ChannelName) :
    (merge existing incoming).Sorted (· ≤ ·) :=
  (sorted_lt_merge existing incoming).imp le_of_lt

lemma nodup_merge (existing incoming : List ChannelName) :
    (merge existing incoming).Nodup :=
  (sorted_lt_merge existing incoming).nodup

lemma mem_merge {x : ChannelName} {existing incoming : List ChannelName} :
    x ∈ merge existing incoming ↔ x ∈ existing ∨ x ∈ incoming := by
  unfold merge sortChannels
  rw [mem_dedupAdjacent, (List.perm_insertionSort _ _).mem_iff, List.mem_append]

lemma length_le_merge {existing incoming : List ChannelName}
    (h : existing.Nodup) : existing.length ≤ (merge existing incoming).length :=
  (List.subperm_of_subset h fun _ hx => mem_merge.mpr (Or.inl hx)).length_le

/-! ## Lemmas about the harvester -/

lemma tryJoinAll_error_of_mem {α : Type} {e : String} :
    ∀ {xs : List (Except String α)}, Except.error e ∈ xs →
      ∃ e2, tryJoinAll xs = Except.error e2 := by
  intro xs
  induction xs with
  | nil => intro h; cases h
  | cons x rest ih =>
      intro h
      cases x with
      | error e3 => exact ⟨e3, rfl⟩
      | ok a =>
          rcases List.mem_cons.mp h with heq | hmem
          · exact Except.noConfusion heq
          · rcases ih hmem with ⟨e2, he2⟩
            exact ⟨e2, by rw [tryJoinAll, he2]⟩

lemma tryJoinAll_map_ok {α β : Type} {f : β → Except String α} {g : β → α} :
    ∀ {l : List β}, (∀ b ∈ l, f b = Except.ok (g b)) →
      tryJoinAll (l.map f) = Except.ok (l.map g) := by
  intro l
  induction l with
  | nil => intro _; rfl
  | cons a t ih =>
      intro h
      have ha := h a (List.mem_cons_self a t)
      have iht := ih fun b hb => h b (List.mem_cons_of_mem a hb)
      rw [List.map_cons, ha, tryJoinAll, iht, List.map_cons]

lemma getAllStreamsForGame_fst (oracle : FetchOracle) (game : String) :
    (getAllStreamsForGame oracle game).fst =
      pageOffsets.map fun off => Request.streams game off 100 := by
  unfold getAllStreamsForGame getStreamsPage
  generalize pageOffsets = offs
  induction offs with
  | nil => rfl
  | cons o t ih => simpa using ih

lemma getAllStreamsForGame_snd_error {oracle : FetchOracle} {game : String}
    {off : Nat} {e : String} (hoff : off ∈ pageOffsets)
    (hfail : oracle (Request.streams game off 100) = Except.error e) :
    ∃ e2, (getAllStreamsForGame oracle game).snd = Except.error e2 := by
  unfold getAllStreamsForGame getStreamsPage
  have hmem : Except.error e ∈
      (pageOffsets.map fun off =>
        ((⟨[Request.streams game off 100],
            oracle (Request.streams game off 100)⟩ :
          List Request × Except String (List String)))).map Prod.snd := by
    rw [List.map_map]
    exact List.mem_map.mpr ⟨off, hoff, hfail.symm ▸ rfl⟩
  rcases tryJoinAll_error_of_mem hmem with ⟨e2, he2⟩
  rw [List.map_map] at he2
  exact ⟨e2, by simp only [List.map_map]; rw [he2]; rfl⟩

lemma getAllStreamsForGame_snd_ok {oracle : FetchOracle} {game : String}
    {pageNames : Nat → List String}
    (h : ∀ off ∈ pageOffsets,
      oracle (Request.streams game off 100) = Except.ok (pageNames off)) :
    (getAllStreamsForGame oracle game).snd =
      Except.ok (pageOffsets.flatMap pageNames) := by
  unfold getAllStreamsForGame getStreamsPage
  have := tryJoinAll_map_ok
    (f := fun off =>
      (((⟨[Request.streams game off 100],
          oracle (Request.streams game off 100)⟩ :
        List Request × Except String (List String)))).snd)
    (g := pageNames) (l := pageOffsets) (fun off hoff => h off hoff)
  simp only [List.map_map]
  rw [Function.comp_def]
  simp only at this
  rw [this]
  rw [List.flatMap_def]
  rfl

lemma harvestStreamRequests (oracle : FetchOracle) :
    ∀ games : List String,
      ((games.map fun g => getAllStreamsForGame oracle g).flatMap Prod.fst) =
        games.flatMap fun g =>
          pageOffsets.map fun off => Request.streams g off 100 := by
  intro games
  induction games with
  | nil => rfl
  | cons g t ih =>
      rw [List.map_cons, List.flatMap_cons, List.flatMap_cons, ih,
        getAllStreamsForGame_fst]

lemma getStreams_fst_of_top_ok {oracle : FetchOracle} {games : List String}
    (htop : oracle (Request.topGames 0 100) = Except.ok games) :
    (getStreams oracle).fst =
      Request.topGames 0 100 ::
        (games.flatMap fun g =>
          pageOffsets.map fun off => Request.streams g off 100) := by
  unfold getStreams getTopGames
  rw [htop]
  show Request.topGames 0 100 ::
      ((games.map fun g => getAllStreamsForGame oracle g).flatMap Prod.fst) = _
  rw [harvestStreamRequests]

lemma getStreams_snd_of_top_ok {oracle : FetchOracle} {games : List String}
    (htop : oracle (Request.topGames 0 100) = Except.ok games) :
    (getStreams oracle).snd =
      (tryJoinAll
        ((games.map fun g => getAllStreamsForGame oracle g).map Prod.snd)).map
        List.flatten := by
  unfold getStreams getTopGames
  rw [htop]

/-! ## Lemmas about the join loop -/

lemma attemptsOf_append (l₁ l₂ : List JoinEvent) :
    attemptsOf (l₁ ++ l₂) = attemptsOf l₁ ++ attemptsOf l₂ :=
  List.filterMap_append l₁ l₂ attemptChannel

lemma failuresOf_append (l₁ l₂ : List JoinEvent) :
    failuresOf (l₁ ++ l₂) = failuresOf l₁ ++ failuresOf l₂ :=
  List.filterMap_append l₁ l₂ failureChannel

lemma attemptsOf_joinOne (outcome : String → JoinOutcome) (c : String) :
    attemptsOf (joinOne outcome c) = [c] := by
  unfold joinOne attemptsOf
  cases outcome c <;> rfl

lemma failuresOf_joinOne (outcome : String → JoinOutcome) (c : String) :
    failuresOf (joinOne outcome c) =
      if (outcome c).isJoined then [] else [c] := by
  unfold joinOne failuresOf
  cases outcome c <;> rfl

/-! ## Claims -/

/-- C1: evaluation of the two handlers at a notice that carries no
intended-recipient field.  The `src/main.rs` handler logs it (the recipient
check has no `else` branch, so a recipient-less notice falls through to the
logging code), contradicting the requirement that such a notice is silently
dropped; the `src/bin/twitch-gift-farm.rs` handler drops it as required. -/
theorem mainHandler_logs_notice_without_recipient :
    handleUserNoticeMain "me" noticeMissingRecipient =
        HandleResult.logged
          ["#somechannel", "tier1", "sub gift", "Dave", "ThePlan"] ∧
      handleUserNoticeBin "me" noticeMissingRecipient = HandleResult.dropped :=
  ⟨rfl, rfl⟩

/-- C2: if any one of the concurrent page fetches (for any category) fails,
the whole harvest call returns an error, so no partial list of channel names
is surfaced to the caller. -/
theorem getStreams_fails_on_any_page_error (oracle : FetchOracle)
    (games : List String) (g : String) (off : Nat) (e : String)
    (htop : oracle (Request.topGames 0 100) = Except.ok games)
    (hg : g ∈ games) (hoff : off ∈ pageOffsets)
    (hfail : oracle (Request.streams g off 100) = Except.error e) :
    ∃ e2, (getStreams oracle).snd = Except.error e2 := by
  rcases getAllStreamsForGame_snd_error hoff hfail with ⟨e1, he1⟩
  have hmem : Except.error e1 ∈
      (games.map fun g => getAllStreamsForGame oracle g).map Prod.snd := by
    rw [List.map_map]
    exact List.mem_map.mpr ⟨g, hg, he1⟩
  rcases tryJoinAll_error_of_mem hmem with ⟨e2, he2⟩
  refine ⟨e2, ?_⟩
  rw [getStreams_snd_of_top_ok htop, he2]
  rfl

/-- Witness for C2 at a concrete network where the page at offset 300 of
the only category fails. -/
theorem getStreams_fails_on_any_page_error_witness :
    ∃ e2, (getStreams oracleOnePageFails).snd = Except.error e2 :=
  getStreams_fails_on_any_page_error oracleOnePageFails ["g1"] "g1" 300 "boom"
    rfl (by decide) (by decide) rfl

/-- C3: for every pair of input lists, the registry merge (concatenate, sort
lexicographically, remove adjacent duplicates) produces a list that is
sorted in lexicographic order and contains no duplicate entries. -/
theorem merge_sorted_and_nodup (existing incoming : List ChannelName) :
    (merge existing incoming).Sorted (· ≤ ·) ∧
      (merge existing incoming).Nodup :=
  ⟨sorted_merge existing incoming, nodup_merge existing incoming⟩

/-- C4: whenever the merge step reports a net-new count, that count equals
len(merged) - len(existing), for every pair of inputs, in particular when
incoming contains duplicates or entries already present in existing. -/
theorem netNew_eq_merged_sub_existing (existing incoming : List ChannelName)
    (n : Nat) (h : netNew existing incoming = some n) :
    (n : Int) =
      ((merge existing incoming).length : Int) - (existing.length : Int) := by
  unfold netNew checkedSub at h
  by_cases hle : existing.length ≤ (merge existing incoming).length
  · rw [if_pos hle] at h
    have h2 := Option.some.inj h
    omega
  · rw [if_neg hle] at h
    exact absurd h (by simp)

/-- Witness for C4: incoming with a duplicate entry; the merge of
`[['a']]` and `[['b'], ['b']]` has length 2 and the reported count is 1. -/
theorem netNew_eq_merged_sub_existing_witness :
    netNew [['a']] [['b'], ['b']] = some 1 ∧
      ((1 : Nat) : Int) =
        ((merge [['a']] [['b'], ['b']]).length : Int) -
          (([['a']] : List ChannelName).length : Int) :=
  ⟨by decide, netNew_eq_merged_sub_existing [['a']] [['b'], ['b']] 1 (by decide)⟩

/-- C5: the merge is idempotent in its incoming argument: merging the same
incoming list again changes nothing and reports a net-new count of zero. -/
theorem merge_idempotent_on_incoming (a b : List ChannelName) :
    merge (merge a b) b = merge a b ∧ netNew (merge a b) b = some 0 := by
  have hmain : merge (merge a b) b = merge a b := by
    refine List.eq_of_perm_of_sorted ?_ (sorted_merge _ _) (sorted_merge _ _)
    refine (List.perm_ext_iff_of_nodup (nodup_merge _ _)
      (nodup_merge _ _)).mpr ?_
    intro x
    constructor
    · intro hx
      rcases mem_merge.mp hx with h | h
      · exact h
      · exact mem_merge.mpr (Or.inr h)
    · intro hx
      exact mem_merge.mpr (Or.inl hx)
  refine ⟨hmain, ?_⟩
  unfold netNew checkedSub
  rw [hmain]
  simp

/-- C6: evaluation of the two handlers at a notice addressed to the
configured recipient whose plan-label tag is absent.  The `src/main.rs`
handler aborts (panic from `.unwrap()` on the missing field) instead of
logging the placeholder "unknown"; the `src/bin/twitch-gift-farm.rs`
handler logs the placeholder; and the escape expansion maps "foo\\sbar"
to "foo bar". -/
theorem mainHandler_panics_on_missing_plan_label :
    handleUserNoticeMain "me" noticeMissingPlanLabel = HandleResult.panicked ∧
      handleUserNoticeBin "me" noticeMissingPlanLabel =
        HandleResult.logged
          ["Me", "#somechannel", "tier1", "sub gift", "Dave", "unknown"] ∧
      replaceEscS "foo\\sbar" = "foo bar" :=
  ⟨rfl, rfl, rfl⟩

/-- C7: the join phase attempts every configured channel, in the configured
order, one at a time; a failed or timed-out join is logged as a failure and
the loop proceeds; and the phase always returns without error. -/
theorem joinChannels_ok_in_order_skipping_failures
    (outcome : String → JoinOutcome) (channels : List String) :
    joinChannels outcome channels =
        Except.ok (channels.flatMap fun c => joinOne outcome c) ∧
      attemptsOf (channels.flatMap fun c => joinOne outcome c) = channels ∧
      failuresOf (channels.flatMap fun c => joinOne outcome c) =
        channels.filter fun c => !(outcome c).isJoined := by
  refine ⟨?_, ?_, ?_⟩
  · induction channels with
    | nil => rfl
    | cons c rest ih => simp [joinChannels, ih, List.flatMap_cons]
  · induction channels with
    | nil => rfl
    | cons c rest ih =>
        rw [List.flatMap_cons, attemptsOf_append, attemptsOf_joinOne, ih]
        rfl
  · induction channels with
    | nil => rfl
    | cons c rest ih =>
        rw [List.flatMap_cons, failuresOf_append, failuresOf_joinOne, ih,
          List.filter_cons]
        by_cases h : (outcome c).isJoined <;> simp [h]

/-- C8: EOF is never terminal: from any Running state it transitions back to
Connecting with the unchanged channel list; a successful connect and the
join phase then return to the same Running state; and any number of such
disconnect-and-recover rounds (no retry limit) ends in that Running state. -/
theorem eof_never_terminal_reconnect_loop (channels : List String) (n : Nat) :
    sessStep ⟨Phase.running, channels⟩ SessEvent.eof =
        ⟨Phase.connecting, channels⟩ ∧
      (sessStep ⟨Phase.running, channels⟩ SessEvent.eof).phase ≠
        Phase.terminated ∧
      stepAll ⟨Phase.running, channels⟩ reconnectCycle =
        ⟨Phase.running, channels⟩ ∧
      stepAll ⟨Phase.running, channels⟩ (reconnectCycles n) =
        ⟨Phase.running, channels⟩ := by
  refine ⟨rfl, fun h => Phase.noConfusion h, rfl, ?_⟩
  induction n with
  | zero => rfl
  | succ n ih =>
      unfold reconnectCycles stepAll
      rw [List.foldl_append]
      exact ih

/-- C9: under a network where the top-games call returns `games` and every
page fetch succeeds, the harvest issues the top-games request exactly once
(offset 0, limit 100) followed by, for each category in order, the ten page
requests at offsets 0, 100, ..., 900 with limit 100, and its result
flattens page results in page order within each category and in category
order across categories. -/
theorem getStreams_request_pattern_and_order (oracle : FetchOracle)
    (games : List String) (pageNames : String → Nat → List String)
    (htop : oracle (Request.topGames 0 100) = Except.ok games)
    (hpages : ∀ g ∈ games, ∀ off ∈ pageOffsets,
      oracle (Request.streams g off 100) = Except.ok (pageNames g off)) :
    (getStreams oracle).fst =
        Request.topGames 0 100 ::
          (games.flatMap fun g =>
            pageOffsets.map fun off => Request.streams g off 100) ∧
      (getStreams oracle).fst.countP isTopGamesRequest = 1 ∧
      (getStreams oracle).snd =
        Except.ok (games.flatMap fun g =>
          pageOffsets.flatMap fun off => pageNames g off) := by
  have hfst := getStreams_fst_of_top_ok htop
  refine ⟨hfst, ?_, ?_⟩
  · have hzero : (games.flatMap fun g =>
        pageOffsets.map fun off =>
          Request.streams g off 100).countP isTopGamesRequest = 0 := by
      rw [List.countP_eq_zero]
      intro r hr
      rcases List.mem_flatMap.mp hr with ⟨g2, _, hr2⟩
      rcases List.mem_map.mp hr2 with ⟨off2, _, rfl⟩
      simp [isTopGamesRequest]
    rw [hfst, List.countP_cons, hzero]
    simp [isTopGamesRequest]
  · have hall : ∀ g ∈ games,
        (Prod.snd ∘ fun g => getAllStreamsForGame oracle g) g =
          Except.ok (pageOffsets.flatMap fun off => pageNames g off) := by
      intro g hg
      exact getAllStreamsForGame_snd_ok fun off hoff => hpages g hg off hoff
    rw [getStreams_snd_of_top_ok htop, List.map_map, tryJoinAll_map_ok hall,
      List.flatMap_def games]
    rfl

/-- Witness for C9 at a concrete all-success network with two categories. -/
theorem getStreams_request_pattern_and_order_witness :
    (getStreams oracleAllOk).fst =
        Request.topGames 0 100 ::
          (["g1", "g2"].flatMap fun g =>
            pageOffsets.map fun off => Request.streams g off 100) ∧
      (getStreams oracleAllOk).fst.countP isTopGamesRequest = 1 ∧
      (getStreams oracleAllOk).snd =
        Except.ok (["g1", "g2"].flatMap fun _ =>
          pageOffsets.flatMap fun _ => ["c"]) :=
  getStreams_request_pattern_and_order oracleAllOk ["g1", "g2"]
    (fun _ _ => ["c"]) rfl (fun _ _ _ _ => rfl)

/-- C10: the net-new count is an unsigned subtraction of the pre-merge
length from the post-merge length; a pre-existing list that itself contains
duplicates makes it underflow (so the code panics there), and the
computation is total whenever the existing list is duplicate-free. -/
theorem netNew_underflow_and_totality :
    netNew [['a'], ['a']] [] = none ∧
      ∀ existing incoming : List ChannelName,
        existing.Nodup → (netNew existing incoming).isSome := by
  constructor
  · decide
  · intro a b h
    unfold netNew checkedSub
    rw [if_pos (length_le_merge h)]
    rfl

/-- Witness for C10 at a concrete duplicate-free existing list. -/
theorem netNew_underflow_and_totality_witness :
    (netNew [['b']] [['a']]).isSome :=
  netNew_underflow_and_totality.2 [['b']] [['a']] (by decide)

end TwitchGiftFarm
